import Mathlib

/-!
Verification of the Black-Scholes option library (`options.py`) against its
specification.

The module is embedded shallowly over the real numbers.  The standard normal
CDF (scipy `norm.cdf`) and PDF (`norm.pdf`) are external numerical primitives
of the library, so every definition takes them as function parameters
`N φ : ℝ → ℝ`, exactly as the code treats scipy as an opaque collaborator.

Results of the Python functions are modelled by `PRes` below: the code can
return an ordinary float, silently produce IEEE NaN (for example from
`np.log` of a negative number), fall through its `if/elif` and return Python
`None`, or raise an exception (`float` division by a zero `strike_px`).
-/

/-- Result of a Python numeric routine in `options.py`:
`num x` is an ordinary finite float result (modelled as a real);
`nonfinite` is an IEEE non-number (NaN, or an infinity: `np.log` of a
negative argument and `0.0/0.0` give NaN, which then poisons every later
arithmetic operation and `norm.cdf`; a zero denominator with a nonzero numpy
numerator would give an infinity - no development below ever evaluates the
code at such an input, the only zero-denominator point reached is the `0/0`
NaN case);
`pyNone` is Python falling off the end of the function and returning `None`;
`exc` is a raised exception (`ZeroDivisionError` from `float` division by
zero). -/
inductive PRes where
  | num : ℝ → PRes
  | nonfinite : PRes
  | pyNone : PRes
  | exc : PRes

/-- The intermediate quantity `d1`, computed identically (inline) by all five
functions of `options.py`:
`d1 = (np.log(spot/strike) + ttm*(0.5*vol**2 + rf - div)) / (vol*sqrt(ttm))`.
`spot_px / strike_px` is `float` division, so `strike = 0` raises
`ZeroDivisionError`; `np.log` of a non-positive ratio yields NaN (or `-inf`
at ratio zero), modelled `nonfinite`; the numerator is then a numpy scalar,
so a zero denominator does not raise - at the only such point evaluated
below the numerator is also zero and the result is NaN (`nonfinite`). -/
noncomputable def d1_calc (spot strike rf div_yield ttm vol : ℝ) : PRes :=
  if strike = 0 then PRes.exc
  else if spot / strike ≤ 0 then PRes.nonfinite
  else if vol * Real.sqrt ttm = 0 then PRes.nonfinite
  else PRes.num ((Real.log (spot / strike) + ttm * (0.5 * vol ^ 2 + rf - div_yield)) /
    (vol * Real.sqrt ttm))

/-- `black_price` of `options.py`.  Returns `0` as soon as `ttm <= 0`
(before anything else is inspected); otherwise computes `d1`, `d2` and
dispatches on the option-type string, falling through to Python `None` on an
unrecognized type.  A NaN `d1` flows through `norm.cdf` and the arithmetic,
so the call/put branches then return NaN. -/
noncomputable def black_price (N : ℝ → ℝ) (spot strike rf div_yield ttm vol : ℝ)
    (opt : String) : PRes :=
  if ttm ≤ 0 then PRes.num 0
  else
    match d1_calc spot strike rf div_yield ttm vol with
    | PRes.num d1 =>
        let d2 := d1 - vol * Real.sqrt ttm
        if opt = "call" then
          PRes.num (Real.exp (-div_yield * ttm) * spot * N d1 -
            Real.exp (-rf * ttm) * strike * N d2)
        else if opt = "put" then
          PRes.num (Real.exp (-rf * ttm) * strike * N (-d2) -
            Real.exp (-div_yield * ttm) * spot * N (-d1))
        else PRes.pyNone
    | PRes.exc => PRes.exc
    | _ =>
        if opt = "call" ∨ opt = "put" then PRes.nonfinite else PRes.pyNone

/-- `black_delta` of `options.py`.  Note the source: the call branch is
`exp(-div_yield*ttm) * cdf(d1)` but the put branch is
`-exp(-rf_rate*ttm) * cdf(-d1)` - the put branch discounts by the risk-free
rate. -/
noncomputable def black_delta (N : ℝ → ℝ) (spot strike rf div_yield ttm vol : ℝ)
    (opt : String) : PRes :=
  if ttm ≤ 0 then PRes.num 0
  else
    match d1_calc spot strike rf div_yield ttm vol with
    | PRes.num d1 =>
        if opt = "call" then
          PRes.num (Real.exp (-div_yield * ttm) * N d1)
        else if opt = "put" then
          PRes.num (-Real.exp (-rf * ttm) * N (-d1))
        else PRes.pyNone
    | PRes.exc => PRes.exc
    | _ =>
        if opt = "call" ∨ opt = "put" then PRes.nonfinite else PRes.pyNone

/-- `black_gamma` of `options.py`:
`exp(-div_yield*ttm) * (norm.pdf(d1) / (spot*vol*sqrt(ttm)))`.
When `d1` is a number its denominator `vol*sqrt(ttm)` is nonzero and the
ratio `spot/strike` is positive, so `spot*vol*sqrt(ttm)` is nonzero as well;
a NaN `d1` gives a NaN result. -/
noncomputable def black_gamma (φ : ℝ → ℝ) (spot strike rf div_yield ttm vol : ℝ) : PRes :=
  if ttm ≤ 0 then PRes.num 0
  else
    match d1_calc spot strike rf div_yield ttm vol with
    | PRes.num d1 =>
        PRes.num (Real.exp (-div_yield * ttm) * (φ d1 / (spot * vol * Real.sqrt ttm)))
    | PRes.exc => PRes.exc
    | _ => PRes.nonfinite

/-- `black_vega` of `options.py`:
`(spot * exp(-div_yield*ttm) * norm.pdf(d1) * sqrt(ttm)) / 100`. -/
noncomputable def black_vega (φ : ℝ → ℝ) (spot strike rf div_yield ttm vol : ℝ) : PRes :=
  if ttm ≤ 0 then PRes.num 0
  else
    match d1_calc spot strike rf div_yield ttm vol with
    | PRes.num d1 =>
        PRes.num (spot * Real.exp (-div_yield * ttm) * φ d1 * Real.sqrt ttm / 100)
    | PRes.exc => PRes.exc
    | _ => PRes.nonfinite

/-- `black_theta` of `options.py` (per calendar day: annualized derivative
divided by 365). -/
noncomputable def black_theta (N φ : ℝ → ℝ) (spot strike rf div_yield ttm vol : ℝ)
    (opt : String) : PRes :=
  if ttm ≤ 0 then PRes.num 0
  else
    match d1_calc spot strike rf div_yield ttm vol with
    | PRes.num d1 =>
        let d2 := d1 - vol * Real.sqrt ttm
        if opt = "call" then
          PRes.num ((-spot * Real.exp (-div_yield * ttm) * φ d1 * vol /
              (2 * Real.sqrt ttm) +
            div_yield * spot * Real.exp (-div_yield * ttm) * N d1 -
            rf * strike * Real.exp (-rf * ttm) * N d2) / 365)
        else if opt = "put" then
          PRes.num ((-spot * Real.exp (-div_yield * ttm) * φ (-d1) * vol /
              (2 * Real.sqrt ttm) -
            div_yield * spot * Real.exp (-div_yield * ttm) * N (-d1) +
            rf * strike * Real.exp (-rf * ttm) * N (-d2)) / 365)
        else PRes.pyNone
    | PRes.exc => PRes.exc
    | _ =>
        if opt = "call" ∨ opt = "put" then PRes.nonfinite else PRes.pyNone

/-- Inner `while not proceed` loop of the decrease branch of `implied_vol`:
while the price probed at `vol - k` is below the target, `k` is divided by
10.  A NaN probe makes the Python `<` comparison `False`, so the loop exits
with the current `k` (a `None` or exception probe would raise in Python;
no input considered below ever produces one inside the solver).  The loop
has no bound in the source; the fuel argument only truncates the embedding,
`none` meaning the loop has not exited within `fuel` probes. -/
noncomputable def shrinkDec (P : ℝ → PRes) (target : ℝ) : ℕ → ℝ → ℝ → Option ℝ
  | 0, _, _ => none
  | fuel + 1, vol, k =>
    match P (vol - k) with
    | PRes.num x => if x < target then shrinkDec P target fuel vol (k / 10) else some k
    | _ => some k

/-- Inner `while not proceed` loop of the increase branch of `implied_vol`:
the source probes the price at `vol - k` (not `vol + k`) and divides `k` by
10 while that probe is above the target, then the caller commits `vol + k`. -/
noncomputable def shrinkInc (P : ℝ → PRes) (target : ℝ) : ℕ → ℝ → ℝ → Option ℝ
  | 0, _, _ => none
  | fuel + 1, vol, k =>
    match P (vol - k) with
    | PRes.num x => if x > target then shrinkInc P target fuel vol (k / 10) else some k
    | _ => some k

/-- Outer `while abs(price - opt_price) > 1.0` loop of `implied_vol`,
lambda-lifted over the price-at-volatility function `P`.  A NaN price makes
the guard `False` and the loop returns the current `vol`.  The source loop
is unbounded; `none` means no exit within `fuel` iterations. -/
noncomputable def solveFuel (P : ℝ → PRes) (target : ℝ) : ℕ → ℝ → ℝ → Option ℝ
  | 0, _, _ => none
  | fuel + 1, vol, k =>
    match P vol with
    | PRes.num x =>
        if |x - target| > 1 then
          if x > target then
            match shrinkDec P target (fuel + 1) vol k with
            | some k2 => solveFuel P target fuel (vol - k2) k2
            | none => none
          else
            match shrinkInc P target (fuel + 1) vol k with
            | some k2 => solveFuel P target fuel (vol + k2) k2
            | none => none
        else some vol
    | _ => some vol

/-- `implied_vol` of `options.py`: starts from `vol = 1`,
`k = 10000000000` and iterates the adjustment loop on
`black_price(spot, strike, rf, div_yield, ttm, ., opt_type)`. -/
noncomputable def implied_vol (N : ℝ → ℝ) (spot strike rf div_yield ttm : ℝ)
    (opt : String) (opt_price : ℝ) (fuel : ℕ) : Option ℝ :=
  solveFuel (fun v => black_price N spot strike rf div_yield ttm v opt)
    opt_price fuel 1 10000000000

/-- A degenerate instance of the external CDF primitive: the constant 1/2.
It is monotone, bounded by 0 and 1 and satisfies `N (-x) = 1 - N x`, which
is all various witnesses below require of scipy's `norm.cdf`. -/
noncomputable def cdfHalf : ℝ → ℝ := fun _ => 1 / 2

/-- A strictly increasing instance of the external CDF primitive with
rational values at rational points: `x ↦ 1/2 + x / (2*(1 + |x|))`.  It maps
into `(0,1)` and satisfies `N (-x) = 1 - N x`. -/
noncomputable def cdfRat : ℝ → ℝ := fun x => 1 / 2 + x / (2 * (1 + |x|))

lemma cdfRat_sub (a : ℝ) : cdfRat a - cdfRat (-a) = a / (1 + |a|) := by
  unfold cdfRat
  rw [abs_neg]
  have h : (0:ℝ) < 1 + |a| := by positivity
  field_simp
  ring

lemma cdfRat_pair (v : ℝ) : cdfRat (v / 2) - cdfRat (-(v / 2)) = v / (2 + |v|) := by
  rw [cdfRat_sub, abs_div]
  have h2 : |(2:ℝ)| = 2 := by norm_num
  rw [h2]
  have h : (0:ℝ) < 2 + |v| := by positivity
  have h4 : (0:ℝ) < 1 + |v| / 2 := by positivity
  field_simp

lemma cdfRat_symm (x : ℝ) : cdfRat (-x) = 1 - cdfRat x := by
  unfold cdfRat
  rw [abs_neg]
  have h : (0:ℝ) < 1 + |x| := by positivity
  field_simp
  ring

/-- `d1` evaluates to an ordinary number on the valid input domain. -/
lemma d1_calc_pos {spot strike rf div_yield ttm vol : ℝ}
    (hS : 0 < spot) (hK : 0 < strike) (hvol : 0 < vol) (httm : 0 < ttm) :
    d1_calc spot strike rf div_yield ttm vol =
      PRes.num ((Real.log (spot / strike) + ttm * (0.5 * vol ^ 2 + rf - div_yield)) /
        (vol * Real.sqrt ttm)) := by
  unfold d1_calc
  rw [if_neg (ne_of_gt hK), if_neg (not_le.mpr (div_pos hS hK)),
    if_neg (mul_ne_zero (ne_of_gt hvol) (ne_of_gt (Real.sqrt_pos.mpr httm)))]

lemma black_price_num_call (N : ℝ → ℝ) {spot strike rf div_yield ttm vol : ℝ}
    (h0 : ¬ ttm ≤ 0) {d1 : ℝ}
    (hd : d1_calc spot strike rf div_yield ttm vol = PRes.num d1) :
    black_price N spot strike rf div_yield ttm vol ("call") =
      PRes.num (Real.exp (-div_yield * ttm) * spot * N d1 -
        Real.exp (-rf * ttm) * strike * N (d1 - vol * Real.sqrt ttm)) := by
  unfold black_price
  rw [if_neg h0, hd]
  rfl

lemma black_price_num_put (N : ℝ → ℝ) {spot strike rf div_yield ttm vol : ℝ}
    (h0 : ¬ ttm ≤ 0) {d1 : ℝ}
    (hd : d1_calc spot strike rf div_yield ttm vol = PRes.num d1) :
    black_price N spot strike rf div_yield ttm vol ("put") =
      PRes.num (Real.exp (-rf * ttm) * strike * N (-(d1 - vol * Real.sqrt ttm)) -
        Real.exp (-div_yield * ttm) * spot * N (-d1)) := by
  unfold black_price
  rw [if_neg h0, hd]
  rfl

/-- On the instance `spot = strike = 1`, `rf = div_yield = 0`, `ttm = 1`
(the one driving the solver analyses) the call price at a nonzero
volatility `v` is `N (v/2) - N (-(v/2))`. -/
lemma black_price_unit_call (N : ℝ → ℝ) (v : ℝ) (hv : v ≠ 0) :
    black_price N 1 1 0 0 1 v ("call") = PRes.num (N (v / 2) - N (-(v / 2))) := by
  have hd : d1_calc 1 1 0 0 1 v = PRes.num (v / 2) := by
    unfold d1_calc
    rw [Real.sqrt_one, mul_one]
    rw [if_neg one_ne_zero, if_neg (by norm_num), if_neg hv]
    congr 1
    rw [(by norm_num : (1:ℝ)/1 = 1), Real.log_one]
    field_simp
    ring
  rw [black_price_num_call N (by norm_num) hd]
  rw [Real.sqrt_one, mul_one]
  congr 1
  rw [neg_zero, zero_mul, Real.exp_zero]
  ring_nf

/-- On the same unit instance the price at volatility `0` is NaN: the `d1`
numerator `log(1/1) + 1*(0.5*0 + 0 - 0)` and denominator `0*sqrt(1)` are
both zero, `0.0/0.0` is NaN, and NaN propagates to the returned price. -/
lemma black_price_unit_zero (N : ℝ → ℝ) :
    black_price N 1 1 0 0 1 0 ("call") = PRes.nonfinite := by
  have hd : d1_calc 1 1 0 0 1 0 = PRes.nonfinite := by
    unfold d1_calc
    rw [if_neg one_ne_zero, if_neg (by norm_num), if_pos (by rw [Real.sqrt_one, mul_one])]
  unfold black_price
  rw [if_neg (by norm_num : ¬ (1:ℝ) ≤ 0), hd]
  rfl

/-- The unit-instance call price under the `cdfRat` primitive, as an
explicit rational function of the volatility. -/
lemma black_price_unit_rat (v : ℝ) (hv : v ≠ 0) :
    black_price cdfRat 1 1 0 0 1 v ("call") = PRes.num (v / (2 + |v|)) := by
  rw [black_price_unit_call cdfRat v hv, cdfRat_pair]

lemma shrinkDec_zero (P : ℝ → PRes) (t vol k : ℝ) : shrinkDec P t 0 vol k = none := rfl

lemma shrinkDec_succ (P : ℝ → PRes) (t : ℝ) (f : ℕ) (vol k : ℝ) :
    shrinkDec P t (f + 1) vol k =
      match P (vol - k) with
      | PRes.num x => if x < t then shrinkDec P t f vol (k / 10) else some k
      | _ => some k := rfl

lemma shrinkDec_step {P : ℝ → PRes} {t vol k x : ℝ} (f : ℕ)
    (h : P (vol - k) = PRes.num x) (hx : x < t) :
    shrinkDec P t (f + 1) vol k = shrinkDec P t f vol (k / 10) := by
  rw [shrinkDec_succ, h]
  simp [hx]

lemma shrinkDec_stop {P : ℝ → PRes} {t vol k x : ℝ} (f : ℕ)
    (h : P (vol - k) = PRes.num x) (hx : ¬ x < t) :
    shrinkDec P t (f + 1) vol k = some k := by
  rw [shrinkDec_succ, h]
  simp [hx]

lemma shrinkDec_nan {P : ℝ → PRes} {t vol k : ℝ} (f : ℕ)
    (h : P (vol - k) = PRes.nonfinite) :
    shrinkDec P t (f + 1) vol k = some k := by
  rw [shrinkDec_succ, h]

lemma shrinkInc_zero (P : ℝ → PRes) (t vol k : ℝ) : shrinkInc P t 0 vol k = none := rfl

lemma shrinkInc_succ (P : ℝ → PRes) (t : ℝ) (f : ℕ) (vol k : ℝ) :
    shrinkInc P t (f + 1) vol k =
      match P (vol - k) with
      | PRes.num x => if x > t then shrinkInc P t f vol (k / 10) else some k
      | _ => some k := rfl

lemma shrinkInc_step {P : ℝ → PRes} {t vol k x : ℝ} (f : ℕ)
    (h : P (vol - k) = PRes.num x) (hx : x > t) :
    shrinkInc P t (f + 1) vol k = shrinkInc P t f vol (k / 10) := by
  rw [shrinkInc_succ, h]
  simp [hx]

lemma shrinkInc_stop {P : ℝ → PRes} {t vol k x : ℝ} (f : ℕ)
    (h : P (vol - k) = PRes.num x) (hx : ¬ x > t) :
    shrinkInc P t (f + 1) vol k = some k := by
  rw [shrinkInc_succ, h]
  simp [hx]

lemma solveFuel_zero (P : ℝ → PRes) (t vol k : ℝ) : solveFuel P t 0 vol k = none := rfl

lemma solveFuel_succ (P : ℝ → PRes) (t : ℝ) (f : ℕ) (vol k : ℝ) :
    solveFuel P t (f + 1) vol k =
      match P vol with
      | PRes.num x =>
          if |x - t| > 1 then
            if x > t then
              match shrinkDec P t (f + 1) vol k with
              | some k2 => solveFuel P t f (vol - k2) k2
              | none => none
            else
              match shrinkInc P t (f + 1) vol k with
              | some k2 => solveFuel P t f (vol + k2) k2
              | none => none
          else some vol
      | _ => some vol := rfl

lemma solveFuel_exit {P : ℝ → PRes} {t vol x : ℝ} (f : ℕ) (k : ℝ)
    (h : P vol = PRes.num x) (hx : ¬ |x - t| > 1) :
    solveFuel P t (f + 1) vol k = some vol := by
  rw [solveFuel_succ, h]
  simp [hx]

lemma solveFuel_nan {P : ℝ → PRes} {t vol : ℝ} (f : ℕ) (k : ℝ)
    (h : P vol = PRes.nonfinite) :
    solveFuel P t (f + 1) vol k = some vol := by
  rw [solveFuel_succ, h]

lemma solveFuel_dec {P : ℝ → PRes} {t vol k x k2 : ℝ} (f : ℕ)
    (h : P vol = PRes.num x) (h1 : |x - t| > 1) (h2 : x > t)
    (h3 : shrinkDec P t (f + 1) vol k = some k2) :
    solveFuel P t (f + 1) vol k = solveFuel P t f (vol - k2) k2 := by
  rw [solveFuel_succ, h]
  simp [h1, h2, h3]

lemma solveFuel_inc {P : ℝ → PRes} {t vol k x k2 : ℝ} (f : ℕ)
    (h : P vol = PRes.num x) (h1 : |x - t| > 1) (h2 : ¬ x > t)
    (h3 : shrinkInc P t (f + 1) vol k = some k2) :
    solveFuel P t (f + 1) vol k = solveFuel P t f (vol + k2) k2 := by
  rw [solveFuel_succ, h]
  simp [h1, h2, h3]

lemma black_delta_num_put (N : ℝ → ℝ) {spot strike rf div_yield ttm vol : ℝ}
    (h0 : ¬ ttm ≤ 0) {d1 : ℝ}
    (hd : d1_calc spot strike rf div_yield ttm vol = PRes.num d1) :
    black_delta N spot strike rf div_yield ttm vol ("put") =
      PRes.num (-Real.exp (-rf * ttm) * N (-d1)) := by
  unfold black_delta
  rw [if_neg h0, hd]
  rfl

/-- Claim C1: for every input with positive spot, strike, volatility and
time to maturity, `black_price` computes
`d1 = (ln(spot/strike) + ttm*(0.5*vol^2 + rate - div_yield))/(vol*sqrt(ttm))`
and `d2 = d1 - vol*sqrt(ttm)`, and returns
`exp(-div_yield*ttm)*spot*N(d1) - exp(-rate*ttm)*strike*N(d2)` for a call and
`exp(-rate*ttm)*strike*N(-d2) - exp(-div_yield*ttm)*spot*N(-d1)` for a put. -/
theorem c1_price_formula (N : ℝ → ℝ) (spot strike rf div_yield ttm vol : ℝ)
    (hS : 0 < spot) (hK : 0 < strike) (hvol : 0 < vol) (httm : 0 < ttm) :
    black_price N spot strike rf div_yield ttm vol ("call") =
      PRes.num (Real.exp (-div_yield * ttm) * spot *
          N ((Real.log (spot / strike) + ttm * (0.5 * vol ^ 2 + rf - div_yield)) /
            (vol * Real.sqrt ttm)) -
        Real.exp (-rf * ttm) * strike *
          N ((Real.log (spot / strike) + ttm * (0.5 * vol ^ 2 + rf - div_yield)) /
              (vol * Real.sqrt ttm) - vol * Real.sqrt ttm)) ∧
    black_price N spot strike rf div_yield ttm vol ("put") =
      PRes.num (Real.exp (-rf * ttm) * strike *
          N (-((Real.log (spot / strike) + ttm * (0.5 * vol ^ 2 + rf - div_yield)) /
              (vol * Real.sqrt ttm) - vol * Real.sqrt ttm)) -
        Real.exp (-div_yield * ttm) * spot *
          N (-((Real.log (spot / strike) + ttm * (0.5 * vol ^ 2 + rf - div_yield)) /
            (vol * Real.sqrt ttm)))) :=
  ⟨black_price_num_call N (not_le.mpr httm) (d1_calc_pos hS hK hvol httm),
    black_price_num_put N (not_le.mpr httm) (d1_calc_pos hS hK hvol httm)⟩

/-- Witness for C1 at `N = cdfHalf`, spot = strike = 1, rates 0, ttm = vol = 1:
both formulas evaluate to 0. -/
theorem c1_price_formula_witness :
    black_price cdfHalf 1 1 0 0 1 1 ("call") = PRes.num 0 ∧
    black_price cdfHalf 1 1 0 0 1 1 ("put") = PRes.num 0 := by
  have h := c1_price_formula cdfHalf 1 1 0 0 1 1 one_pos one_pos one_pos one_pos
  constructor
  · rw [h.1]
    simp only [cdfHalf]
    congr 1
    ring
  · rw [h.2]
    simp only [cdfHalf]
    congr 1
    ring

/-- Claim C2 is false of the code: at spot = strike = 1, rf_rate = 1,
div_yield = 0, ttm = vol = 1 (so d1 = 3/2) the put delta returned by
`black_delta` is `-exp(-rf*ttm)*N(-d1) = -exp(-1)*(1/5)` under the `cdfRat`
primitive, which differs from the claimed
`exp(-div_yield*ttm)*(N(d1)-1) = -(1/5)`: the source discounts the put delta
by the risk-free rate instead of the dividend yield. -/
theorem c2_put_delta_uses_rf_discount :
    black_delta cdfRat 1 1 1 0 1 1 ("put") =
      PRes.num (-Real.exp (-(1:ℝ) * 1) * (1 / 5)) ∧
    black_delta cdfRat 1 1 1 0 1 1 ("put") ≠
      PRes.num (Real.exp (-(0:ℝ) * 1) * (cdfRat (3 / 2) - 1)) := by
  have hd : d1_calc 1 1 1 0 1 1 = PRes.num (3 / 2) := by
    unfold d1_calc
    rw [Real.sqrt_one, mul_one]
    rw [if_neg one_ne_zero, if_neg (by norm_num), if_neg one_ne_zero]
    congr 1
    rw [(by norm_num : (1:ℝ)/1 = 1), Real.log_one]
    norm_num
  have hneg : cdfRat (-(3 / 2)) = 1 / 5 := by
    unfold cdfRat
    rw [abs_neg, abs_of_pos (by norm_num : (0:ℝ) < 3 / 2)]
    norm_num
  have hpos : cdfRat (3 / 2) = 4 / 5 := by
    unfold cdfRat
    rw [abs_of_pos (by norm_num : (0:ℝ) < 3 / 2)]
    norm_num
  have hcode : black_delta cdfRat 1 1 1 0 1 1 ("put") =
      PRes.num (-Real.exp (-(1:ℝ) * 1) * (1 / 5)) := by
    rw [black_delta_num_put cdfRat (by norm_num) hd, hneg]
  refine ⟨hcode, ?_⟩
  rw [hcode, hpos]
  intro h
  have h2 : -Real.exp (-(1:ℝ) * 1) * (1 / 5) = Real.exp (-(0:ℝ) * 1) * (4 / 5 - 1) := by
    injection h
  have h3 : Real.exp (-(1:ℝ)) = 1 := by
    rw [(by norm_num : -(1:ℝ) * 1 = -1), (by norm_num : -(0:ℝ) * 1 = 0), Real.exp_zero] at h2
    nlinarith [h2]
  have h4 : Real.exp (-(1:ℝ)) < 1 := Real.exp_lt_one_iff.mpr (by norm_num)
  rw [h3] at h4
  exact lt_irrefl 1 h4

/-- Claim C4: for every valid input with `ttm <= 0`, all five operations
return exactly 0. -/
theorem c4_degenerate_expiry_zero (N φ : ℝ → ℝ) (spot strike rf div_yield ttm vol : ℝ)
    (opt : String) (hS : 0 < spot) (hK : 0 < strike) (hvol : 0 < vol)
    (httm : ttm ≤ 0) (hopt : opt = "call" ∨ opt = "put") :
    black_price N spot strike rf div_yield ttm vol opt = PRes.num 0 ∧
    black_delta N spot strike rf div_yield ttm vol opt = PRes.num 0 ∧
    black_gamma φ spot strike rf div_yield ttm vol = PRes.num 0 ∧
    black_vega φ spot strike rf div_yield ttm vol = PRes.num 0 ∧
    black_theta N φ spot strike rf div_yield ttm vol opt = PRes.num 0 := by
  refine ⟨?_, ?_, ?_, ?_, ?_⟩ <;>
    simp [black_price, black_delta, black_gamma, black_vega, black_theta, httm]

/-- Witness for C4 at spot = 2, strike = 3, vol = 1, ttm = -1, put. -/
theorem c4_degenerate_expiry_zero_witness :
    black_price cdfHalf 2 3 0 0 (-1) 1 ("put") = PRes.num 0 ∧
    black_delta cdfHalf 2 3 0 0 (-1) 1 ("put") = PRes.num 0 ∧
    black_gamma cdfRat 2 3 0 0 (-1) 1 = PRes.num 0 ∧
    black_vega cdfRat 2 3 0 0 (-1) 1 = PRes.num 0 ∧
    black_theta cdfHalf cdfRat 2 3 0 0 (-1) 1 ("put") = PRes.num 0 :=
  c4_degenerate_expiry_zero cdfHalf cdfRat 2 3 0 0 (-1) 1 ("put")
    (by norm_num) (by norm_num) one_pos (by norm_num) (Or.inr rfl)

/-- Claim C10: the `ttm <= 0` branch returns 0 before any other check, so
all five operations yield 0 even for non-positive spot/strike/volatility or
an unrecognized option-type string. -/
theorem c10_degenerate_branch_precedence (N φ : ℝ → ℝ)
    (spot strike rf div_yield ttm vol : ℝ) (opt : String) (httm : ttm ≤ 0) :
    black_price N spot strike rf div_yield ttm vol opt = PRes.num 0 ∧
    black_delta N spot strike rf div_yield ttm vol opt = PRes.num 0 ∧
    black_gamma φ spot strike rf div_yield ttm vol = PRes.num 0 ∧
    black_vega φ spot strike rf div_yield ttm vol = PRes.num 0 ∧
    black_theta N φ spot strike rf div_yield ttm vol opt = PRes.num 0 := by
  refine ⟨?_, ?_, ?_, ?_, ?_⟩ <;>
    simp [black_price, black_delta, black_gamma, black_vega, black_theta, httm]

/-- Witness for C10: ttm = 0 with negative spot and volatility and garbage
option type still give 0 everywhere. -/
theorem c10_degenerate_branch_precedence_witness :
    black_price cdfHalf (-5) (-4) 0 0 0 (-2) ("frob") = PRes.num 0 ∧
    black_delta cdfHalf (-5) (-4) 0 0 0 (-2) ("frob") = PRes.num 0 ∧
    black_gamma cdfRat (-5) (-4) 0 0 0 (-2) = PRes.num 0 ∧
    black_vega cdfRat (-5) (-4) 0 0 0 (-2) = PRes.num 0 ∧
    black_theta cdfHalf cdfRat (-5) (-4) 0 0 0 (-2) ("frob") = PRes.num 0 :=
  c10_degenerate_branch_precedence cdfHalf cdfRat (-5) (-4) 0 0 0 (-2) ("frob")
    le_rfl

/-- Claim C8 is false of the code: there is no input validation.  At
spot = -1, strike = 1, rates 0, ttm = vol = 1 the code evaluates
`np.log(-1)`, which silently yields NaN; the NaN flows through `norm.cdf`
and the arithmetic and `black_price` (likewise `black_gamma`) returns it to
the caller instead of raising an explicit error. -/
theorem c8_nan_propagates_unchecked (N φ : ℝ → ℝ) :
    black_price N (-1) 1 0 0 1 1 ("call") = PRes.nonfinite ∧
    black_gamma φ (-1) 1 0 0 1 1 = PRes.nonfinite := by
  have hd : d1_calc (-1) 1 0 0 1 1 = PRes.nonfinite := by
    unfold d1_calc
    rw [if_neg one_ne_zero, if_pos (by norm_num : (-1:ℝ) / 1 ≤ 0)]
  constructor
  · unfold black_price
    rw [if_neg (by norm_num : ¬ (1:ℝ) ≤ 0), hd]
    rfl
  · unfold black_gamma
    rw [if_neg (by norm_num : ¬ (1:ℝ) ≤ 0), hd]

/-- Claim C9 as stated is false: with `ttm <= 0` the degenerate branch fires
before the option type is inspected, so an unrecognized variant is silently
coerced to the default result 0 rather than surfacing an error. -/
theorem c9_unknown_type_silently_zero :
    black_price cdfHalf 5 7 0 0 0 2 ("straddle") = PRes.num 0 ∧
    PRes.num (0:ℝ) ≠ PRes.pyNone ∧ PRes.num (0:ℝ) ≠ PRes.exc := by
  refine ⟨?_, by simp, by simp⟩
  simp [black_price]

/-- Claim C9, amended: for `ttm > 0` an option type other than `call`/`put`
never produces a numeric result from `black_price`, `black_delta` or
`black_theta`: Python falls through and returns `None` (or, when
`strike = 0`, the `d1` division raises `ZeroDivisionError` first). -/
theorem c9_unknown_type_no_number (N φ : ℝ → ℝ)
    (spot strike rf div_yield ttm vol : ℝ) (opt : String) (httm : 0 < ttm)
    (hc : opt ≠ "call") (hp : opt ≠ "put") :
    (black_price N spot strike rf div_yield ttm vol opt = PRes.pyNone ∨
      black_price N spot strike rf div_yield ttm vol opt = PRes.exc) ∧
    (black_delta N spot strike rf div_yield ttm vol opt = PRes.pyNone ∨
      black_delta N spot strike rf div_yield ttm vol opt = PRes.exc) ∧
    (black_theta N φ spot strike rf div_yield ttm vol opt = PRes.pyNone ∨
      black_theta N φ spot strike rf div_yield ttm vol opt = PRes.exc) := by
  have h0 : ¬ ttm ≤ 0 := not_le.mpr httm
  refine ⟨?_, ?_, ?_⟩ <;>
  · first
    | (unfold black_price; rw [if_neg h0]
       cases d1_calc spot strike rf div_yield ttm vol <;> simp [hc, hp])
    | (unfold black_delta; rw [if_neg h0]
       cases d1_calc spot strike rf div_yield ttm vol <;> simp [hc, hp])
    | (unfold black_theta; rw [if_neg h0]
       cases d1_calc spot strike rf div_yield ttm vol <;> simp [hc, hp])

/-- Witness for the amended C9 at a concrete unrecognized type. -/
theorem c9_unknown_type_no_number_witness :
    (black_price cdfHalf 2 3 0 0 1 1 ("bermudan") = PRes.pyNone ∨
      black_price cdfHalf 2 3 0 0 1 1 ("bermudan") = PRes.exc) ∧
    (black_delta cdfHalf 2 3 0 0 1 1 ("bermudan") = PRes.pyNone ∨
      black_delta cdfHalf 2 3 0 0 1 1 ("bermudan") = PRes.exc) ∧
    (black_theta cdfHalf cdfRat 2 3 0 0 1 1 ("bermudan") = PRes.pyNone ∨
      black_theta cdfHalf cdfRat 2 3 0 0 1 1 ("bermudan") = PRes.exc) :=
  c9_unknown_type_no_number cdfHalf cdfRat 2 3 0 0 1 1 ("bermudan") one_pos
    (by simp) (by simp)

/-- Claim C7 as stated (over `ttm >= 0`) is false at `ttm = 0`: with
spot = 2, strike = 1 both prices are 0 (degenerate branch), so
`price(call) - price(put) = 0` while
`spot*exp(-div_yield*ttm) - strike*exp(-rate*ttm) = 2 - 1 = 1`. -/
theorem c7_parity_fails_at_expiry :
    black_price cdfHalf 2 1 0 0 0 1 ("call") = PRes.num 0 ∧
    black_price cdfHalf 2 1 0 0 0 1 ("put") = PRes.num 0 ∧
    (0:ℝ) - 0 ≠ 2 * Real.exp (-(0:ℝ) * 0) - 1 * Real.exp (-(0:ℝ) * 0) := by
  refine ⟨by simp [black_price], by simp [black_price], ?_⟩
  norm_num [Real.exp_zero]

/-- Claim C7, amended: put-call parity
`price(call) - price(put) = spot*exp(-div_yield*ttm) - strike*exp(-rate*ttm)`
holds exactly for every valid input with `ttm > 0` (for a CDF primitive
satisfying `N(-x) = 1 - N(x)`); at `ttm = 0` both prices are 0 and the
identity fails whenever spot differs from strike. -/
theorem c7_put_call_parity (N : ℝ → ℝ) (spot strike rf div_yield ttm vol : ℝ)
    (hN : ∀ x, N (-x) = 1 - N x)
    (hS : 0 < spot) (hK : 0 < strike) (hvol : 0 < vol) (httm : 0 < ttm)
    (c p : ℝ)
    (hc : black_price N spot strike rf div_yield ttm vol ("call") = PRes.num c)
    (hp : black_price N spot strike rf div_yield ttm vol ("put") = PRes.num p) :
    c - p = spot * Real.exp (-div_yield * ttm) - strike * Real.exp (-rf * ttm) := by
  rw [black_price_num_call N (not_le.mpr httm) (d1_calc_pos hS hK hvol httm)] at hc
  rw [black_price_num_put N (not_le.mpr httm) (d1_calc_pos hS hK hvol httm)] at hp
  injection hc with hc2
  injection hp with hp2
  rw [← hc2, ← hp2]
  simp only [hN]
  ring

/-- Witness for the amended C7 at `N = cdfHalf`, spot = 3, strike = 2,
rates 0, ttm = vol = 1. -/
theorem c7_put_call_parity_witness :
    black_price cdfHalf 3 2 0 0 1 1 ("call") = PRes.num (1 / 2) ∧
    black_price cdfHalf 3 2 0 0 1 1 ("put") = PRes.num (-(1 / 2)) ∧
    (1 / 2 : ℝ) - -(1 / 2) = 3 * Real.exp (-(0:ℝ) * 1) - 2 * Real.exp (-(0:ℝ) * 1) := by
  have hd := @d1_calc_pos 3 2 0 0 1 1 (by norm_num) (by norm_num) one_pos one_pos
  have hcall : black_price cdfHalf 3 2 0 0 1 1 ("call") = PRes.num (1 / 2) := by
    rw [black_price_num_call cdfHalf (by norm_num) hd]
    congr 1
    simp [cdfHalf]
    norm_num [Real.exp_zero]
  have hput : black_price cdfHalf 3 2 0 0 1 1 ("put") = PRes.num (-(1 / 2)) := by
    rw [black_price_num_put cdfHalf (by norm_num) hd]
    congr 1
    simp [cdfHalf]
    norm_num [Real.exp_zero]
  exact ⟨hcall, hput,
    c7_put_call_parity cdfHalf 3 2 0 0 1 1
      (fun x => by simp [cdfHalf]; norm_num) (by norm_num) (by norm_num)
      one_pos one_pos (1 / 2) (-(1 / 2)) hcall hput⟩

lemma unit_vol_ne (m : ℕ) : (1:ℝ) - m * 10000000000 ≠ 0 := by
  rcases Nat.eq_zero_or_pos m with h | h
  · subst h
    norm_num
  · have h1 : (1:ℝ) ≤ (m:ℝ) := by exact_mod_cast h
    nlinarith

/-- With a target of -3 on the unit instance, every reachable solver state
keeps the price at least 2 above the target (prices lie in `[-1,1]` for a
CDF bounded by 0 and 1), the step never shrinks and the guess only ever
moves down by the full step: the outer loop never exits, at any fuel. -/
lemma solveFuel_unit_none (N : ℝ → ℝ) (h0 : ∀ x, 0 ≤ N x) (h1 : ∀ x, N x ≤ 1) :
    ∀ fuel m : ℕ,
      solveFuel (fun v => black_price N 1 1 0 0 1 v ("call")) (-3) fuel
        (1 - m * 10000000000) 10000000000 = none := by
  intro fuel
  induction fuel with
  | zero => intro m; rfl
  | succ f ih =>
    intro m
    have hvol : (1:ℝ) - m * 10000000000 ≠ 0 := unit_vol_ne m
    have hvol2 : (1:ℝ) - m * 10000000000 - 10000000000 ≠ 0 := by
      have he : (1:ℝ) - m * 10000000000 - 10000000000 =
          1 - ((m+1 : ℕ) : ℝ) * 10000000000 := by push_cast; ring
      rw [he]
      exact unit_vol_ne (m+1)
    have hx := black_price_unit_call N (1 - m * 10000000000) hvol
    have hy := black_price_unit_call N (1 - m * 10000000000 - 10000000000) hvol2
    have hxlo : (-1:ℝ) ≤
        N ((1 - m * 10000000000)/2) - N (-((1 - m * 10000000000)/2)) := by
      have a := h0 ((1 - (m:ℝ) * 10000000000)/2)
      have b := h1 (-((1 - (m:ℝ) * 10000000000)/2))
      linarith
    have hxhi : N ((1 - m * 10000000000)/2) - N (-((1 - m * 10000000000)/2)) ≤ 1 := by
      have a := h1 ((1 - (m:ℝ) * 10000000000)/2)
      have b := h0 (-((1 - (m:ℝ) * 10000000000)/2))
      linarith
    have hylo : (-1:ℝ) ≤ N ((1 - m * 10000000000 - 10000000000)/2) -
        N (-((1 - m * 10000000000 - 10000000000)/2)) := by
      have a := h0 ((1 - (m:ℝ) * 10000000000 - 10000000000)/2)
      have b := h1 (-((1 - (m:ℝ) * 10000000000 - 10000000000)/2))
      linarith
    have hguard : |(N ((1 - m * 10000000000)/2) -
        N (-((1 - m * 10000000000)/2))) - (-3)| > 1 := by
      rw [abs_of_nonneg (by linarith)]
      linarith
    have hbranch : N ((1 - m * 10000000000)/2) -
        N (-((1 - m * 10000000000)/2)) > -3 := by linarith
    have hprobe : shrinkDec (fun v => black_price N 1 1 0 0 1 v ("call")) (-3) (f+1)
        (1 - m * 10000000000) 10000000000 = some 10000000000 :=
      shrinkDec_stop f hy (by linarith)
    rw [solveFuel_dec f hx hguard hbranch hprobe]
    have he : (1:ℝ) - m * 10000000000 - 10000000000 =
        1 - ((m+1 : ℕ) : ℝ) * 10000000000 := by push_cast; ring
    rw [he]
    exact ih (m+1)

/-- Claim C3 is false of the code: for the call input spot = strike = 1,
rates 0, ttm = 1 and observed price -3 (strictly below the intrinsic value
`max(spot-strike,0) = 0`), `implied_vol` never terminates - at every fuel
bound the loop is still running.  There is no iteration cap, step-size
floor, or failure signal of any kind in the source. -/
theorem c3_below_intrinsic_never_returns (N : ℝ → ℝ) (h0 : ∀ x, 0 ≤ N x)
    (h1 : ∀ x, N x ≤ 1) (fuel : ℕ) :
    implied_vol N 1 1 0 0 1 ("call") (-3) fuel = none := by
  unfold implied_vol
  have h := solveFuel_unit_none N h0 h1 fuel 0
  simpa using h

/-- Witness for C3 at `N = cdfHalf` and fuel 7. -/
theorem c3_below_intrinsic_never_returns_witness :
    implied_vol cdfHalf 1 1 0 0 1 ("call") (-3) 7 = none :=
  c3_below_intrinsic_never_returns cdfHalf (fun x => by norm_num [cdfHalf])
    (fun x => by norm_num [cdfHalf]) 7

lemma solveFuel_pyNone {P : ℝ → PRes} {t vol : ℝ} (f : ℕ) (k : ℝ)
    (h : P vol = PRes.pyNone) : solveFuel P t (f + 1) vol k = some vol := by
  rw [solveFuel_succ, h]

lemma solveFuel_exc {P : ℝ → PRes} {t vol : ℝ} (f : ℕ) (k : ℝ)
    (h : P vol = PRes.exc) : solveFuel P t (f + 1) vol k = some vol := by
  rw [solveFuel_succ, h]

lemma solveFuel_dec_none {P : ℝ → PRes} {t vol k x : ℝ} (f : ℕ)
    (h : P vol = PRes.num x) (h1 : |x - t| > 1) (h2 : x > t)
    (h3 : shrinkDec P t (f + 1) vol k = none) :
    solveFuel P t (f + 1) vol k = none := by
  rw [solveFuel_succ, h]
  simp [h1, h2, h3]

lemma solveFuel_inc_none {P : ℝ → PRes} {t vol k x : ℝ} (f : ℕ)
    (h : P vol = PRes.num x) (h1 : |x - t| > 1) (h2 : ¬ x > t)
    (h3 : shrinkInc P t (f + 1) vol k = none) :
    solveFuel P t (f + 1) vol k = none := by
  rw [solveFuel_succ, h]
  simp [h1, h2, h3]

/-- Every normal exit of the outer loop happens with the guard false, so a
returned volatility whose price is an actual number is within tolerance. -/
lemma solveFuel_tolerance (P : ℝ → PRes) (t : ℝ) :
    ∀ fuel vol k v, solveFuel P t fuel vol k = some v →
      ∀ x, P v = PRes.num x → |x - t| ≤ 1 := by
  intro fuel
  induction fuel with
  | zero =>
    intro vol k v h
    rw [solveFuel_zero] at h
    exact absurd h (by simp)
  | succ f ih =>
    intro vol k v h x hx
    cases hp : P vol with
    | num y =>
      by_cases hg : |y - t| > 1
      · by_cases hb : y > t
        · cases hs : shrinkDec P t (f + 1) vol k with
          | none =>
            rw [solveFuel_dec_none f hp hg hb hs] at h
            exact absurd h (by simp)
          | some k2 =>
            rw [solveFuel_dec f hp hg hb hs] at h
            exact ih _ _ _ h x hx
        · cases hs : shrinkInc P t (f + 1) vol k with
          | none =>
            rw [solveFuel_inc_none f hp hg hb hs] at h
            exact absurd h (by simp)
          | some k2 =>
            rw [solveFuel_inc f hp hg hb hs] at h
            exact ih _ _ _ h x hx
      · rw [solveFuel_exit f k hp hg] at h
        injection h with hv
        subst hv
        rw [hp] at hx
        injection hx with hxy
        subst hxy
        exact not_lt.mp hg
    | nonfinite =>
      rw [solveFuel_nan f k hp] at h
      injection h with hv
      subst hv
      rw [hp] at hx
      exact absurd hx (by simp)
    | pyNone =>
      rw [solveFuel_pyNone f k hp] at h
      injection h with hv
      subst hv
      rw [hp] at hx
      exact absurd hx (by simp)
    | exc =>
      rw [solveFuel_exc f k hp] at h
      injection h with hv
      subst hv
      rw [hp] at hx
      exact absurd hx (by simp)

/-- Claim C6, amended: whenever `implied_vol` terminates returning a
volatility `v` and the price at `v` is an actual number `x`, then
`|x - observed| <= 1`.  The code can also exit returning a `v` whose price
is NaN (the IEEE guard comparison is false on NaN), in which case no
tolerance holds - see the counterexample. -/
theorem c6_tolerance_on_numeric_exit (N : ℝ → ℝ)
    (spot strike rf div_yield ttm t : ℝ) (opt : String) (fuel : ℕ) (v x : ℝ)
    (hsolve : implied_vol N spot strike rf div_yield ttm opt t fuel = some v)
    (hprice : black_price N spot strike rf div_yield ttm v opt = PRes.num x) :
    |x - t| ≤ 1 := by
  unfold implied_vol at hsolve
  exact solveFuel_tolerance _ t fuel 1 10000000000 v hsolve x hprice

/-- Witness for the amended C6: with the constant CDF the price at the
initial guess is already within tolerance of a target of 0, the solver
returns 1 at once, and the tolerance bound holds there. -/
theorem c6_tolerance_on_numeric_exit_witness :
    implied_vol cdfHalf 1 1 0 0 1 ("call") 0 1 = some 1 ∧ |(0:ℝ) - 0| ≤ 1 := by
  have hx : black_price cdfHalf 1 1 0 0 1 1 ("call") = PRes.num 0 := by
    rw [black_price_unit_call cdfHalf 1 one_ne_zero]
    congr 1
    norm_num [cdfHalf]
  have hsolve : implied_vol cdfHalf 1 1 0 0 1 ("call") 0 1 = some 1 := by
    unfold implied_vol
    exact solveFuel_exit 0 10000000000 hx (by norm_num)
  exact ⟨hsolve,
    c6_tolerance_on_numeric_exit cdfHalf 1 1 0 0 1 0 ("call") 1 1 0 hsolve hx⟩

/-- The inner step-shrinking loop on the unit instance with target -7/10:
starting from `vol = 1`, `k = 10^10`, each probe at `1 - k` prices below
the target, so `k` is divided by 10 ten times down to `k = 1`; the probe at
volatility `1 - 1 = 0` then prices to NaN, the Python `<` is false and the
loop exits with `k = 1`. -/
lemma unit_inner_trace :
    shrinkDec (fun v => black_price cdfRat 1 1 0 0 1 v ("call")) (-(7/10)) 13 1
      10000000000 = some 1 := by
  have p10 : black_price cdfRat 1 1 0 0 1 ((1:ℝ) - 10000000000) ("call") =
      PRes.num (((1:ℝ) - 10000000000) / (2 + |(1:ℝ) - 10000000000|)) :=
    black_price_unit_rat _ (by norm_num)
  have c10 : ((1:ℝ) - 10000000000) / (2 + |(1:ℝ) - 10000000000|) < -(7/10) := by
    rw [abs_of_neg (by norm_num : (1:ℝ) - 10000000000 < 0)]
    norm_num
  refine (shrinkDec_step 12 p10 c10).trans ?_
  rw [(by norm_num : (10000000000:ℝ) / 10 = 1000000000)]
  have p9 : black_price cdfRat 1 1 0 0 1 ((1:ℝ) - 1000000000) ("call") =
      PRes.num (((1:ℝ) - 1000000000) / (2 + |(1:ℝ) - 1000000000|)) :=
    black_price_unit_rat _ (by norm_num)
  have c9 : ((1:ℝ) - 1000000000) / (2 + |(1:ℝ) - 1000000000|) < -(7/10) := by
    rw [abs_of_neg (by norm_num : (1:ℝ) - 1000000000 < 0)]
    norm_num
  refine (shrinkDec_step 11 p9 c9).trans ?_
  rw [(by norm_num : (1000000000:ℝ) / 10 = 100000000)]
  have p8 : black_price cdfRat 1 1 0 0 1 ((1:ℝ) - 100000000) ("call") =
      PRes.num (((1:ℝ) - 100000000) / (2 + |(1:ℝ) - 100000000|)) :=
    black_price_unit_rat _ (by norm_num)
  have c8 : ((1:ℝ) - 100000000) / (2 + |(1:ℝ) - 100000000|) < -(7/10) := by
    rw [abs_of_neg (by norm_num : (1:ℝ) - 100000000 < 0)]
    norm_num
  refine (shrinkDec_step 10 p8 c8).trans ?_
  rw [(by norm_num : (100000000:ℝ) / 10 = 10000000)]
  have p7 : black_price cdfRat 1 1 0 0 1 ((1:ℝ) - 10000000) ("call") =
      PRes.num (((1:ℝ) - 10000000) / (2 + |(1:ℝ) - 10000000|)) :=
    black_price_unit_rat _ (by norm_num)
  have c7 : ((1:ℝ) - 10000000) / (2 + |(1:ℝ) - 10000000|) < -(7/10) := by
    rw [abs_of_neg (by norm_num : (1:ℝ) - 10000000 < 0)]
    norm_num
  refine (shrinkDec_step 9 p7 c7).trans ?_
  rw [(by norm_num : (10000000:ℝ) / 10 = 1000000)]
  have p6 : black_price cdfRat 1 1 0 0 1 ((1:ℝ) - 1000000) ("call") =
      PRes.num (((1:ℝ) - 1000000) / (2 + |(1:ℝ) - 1000000|)) :=
    black_price_unit_rat _ (by norm_num)
  have c6 : ((1:ℝ) - 1000000) / (2 + |(1:ℝ) - 1000000|) < -(7/10) := by
    rw [abs_of_neg (by norm_num : (1:ℝ) - 1000000 < 0)]
    norm_num
  refine (shrinkDec_step 8 p6 c6).trans ?_
  rw [(by norm_num : (1000000:ℝ) / 10 = 100000)]
  have p5 : black_price cdfRat 1 1 0 0 1 ((1:ℝ) - 100000) ("call") =
      PRes.num (((1:ℝ) - 100000) / (2 + |(1:ℝ) - 100000|)) :=
    black_price_unit_rat _ (by norm_num)
  have c5 : ((1:ℝ) - 100000) / (2 + |(1:ℝ) - 100000|) < -(7/10) := by
    rw [abs_of_neg (by norm_num : (1:ℝ) - 100000 < 0)]
    norm_num
  refine (shrinkDec_step 7 p5 c5).trans ?_
  rw [(by norm_num : (100000:ℝ) / 10 = 10000)]
  have p4 : black_price cdfRat 1 1 0 0 1 ((1:ℝ) - 10000) ("call") =
      PRes.num (((1:ℝ) - 10000) / (2 + |(1:ℝ) - 10000|)) :=
    black_price_unit_rat _ (by norm_num)
  have c4 : ((1:ℝ) - 10000) / (2 + |(1:ℝ) - 10000|) < -(7/10) := by
    rw [abs_of_neg (by norm_num : (1:ℝ) - 10000 < 0)]
    norm_num
  refine (shrinkDec_step 6 p4 c4).trans ?_
  rw [(by norm_num : (10000:ℝ) / 10 = 1000)]
  have p3 : black_price cdfRat 1 1 0 0 1 ((1:ℝ) - 1000) ("call") =
      PRes.num (((1:ℝ) - 1000) / (2 + |(1:ℝ) - 1000|)) :=
    black_price_unit_rat _ (by norm_num)
  have c3 : ((1:ℝ) - 1000) / (2 + |(1:ℝ) - 1000|) < -(7/10) := by
    rw [abs_of_neg (by norm_num : (1:ℝ) - 1000 < 0)]
    norm_num
  refine (shrinkDec_step 5 p3 c3).trans ?_
  rw [(by norm_num : (1000:ℝ) / 10 = 100)]
  have p2 : black_price cdfRat 1 1 0 0 1 ((1:ℝ) - 100) ("call") =
      PRes.num (((1:ℝ) - 100) / (2 + |(1:ℝ) - 100|)) :=
    black_price_unit_rat _ (by norm_num)
  have c2 : ((1:ℝ) - 100) / (2 + |(1:ℝ) - 100|) < -(7/10) := by
    rw [abs_of_neg (by norm_num : (1:ℝ) - 100 < 0)]
    norm_num
  refine (shrinkDec_step 4 p2 c2).trans ?_
  rw [(by norm_num : (100:ℝ) / 10 = 10)]
  have p1 : black_price cdfRat 1 1 0 0 1 ((1:ℝ) - 10) ("call") =
      PRes.num (((1:ℝ) - 10) / (2 + |(1:ℝ) - 10|)) :=
    black_price_unit_rat _ (by norm_num)
  have c1 : ((1:ℝ) - 10) / (2 + |(1:ℝ) - 10|) < -(7/10) := by
    rw [abs_of_neg (by norm_num : (1:ℝ) - 10 < 0)]
    norm_num
  refine (shrinkDec_step 3 p1 c1).trans ?_
  rw [(by norm_num : (10:ℝ) / 10 = 1)]
  have hz : black_price cdfRat 1 1 0 0 1 ((1:ℝ) - 1) ("call") = PRes.nonfinite := by
    rw [(by norm_num : (1:ℝ) - 1 = 0)]
    exact black_price_unit_zero cdfRat
  exact shrinkDec_nan 2 hz

/-- Claim C6 as stated is false of the code: on the unit instance with
observed price -7/10, `implied_vol` terminates returning volatility 0, but
the price at volatility 0 is NaN - in particular there is no real price
within 1.0 of the observed price at the returned volatility.  (The run:
the first outer iteration shrinks `k` from `10^10` down to 1 because every
probe prices below the target, the probe at `1 - 1 = 0` prices to NaN so
the inner loop exits, the guess moves to `0`, and the outer guard
`abs(NaN - target) > 1` is false, returning 0.) -/
theorem c6_nan_exit_counterexample :
    implied_vol cdfRat 1 1 0 0 1 ("call") (-(7/10)) 13 = some 0 ∧
    ¬ ∃ x, black_price cdfRat 1 1 0 0 1 0 ("call") = PRes.num x ∧
      |x - -(7/10)| ≤ 1 := by
  constructor
  · unfold implied_vol
    have hx : black_price cdfRat 1 1 0 0 1 1 ("call") = PRes.num (1/3) := by
      rw [black_price_unit_rat 1 one_ne_zero]
      congr 1
      rw [abs_one]
      norm_num
    refine (solveFuel_dec 12 hx ?_ ?_ unit_inner_trace).trans ?_
    · rw [abs_of_nonneg (by norm_num : (0:ℝ) ≤ 1/3 - -(7/10))]
      norm_num
    · norm_num
    have hz : black_price cdfRat 1 1 0 0 1 ((1:ℝ) - 1) ("call") = PRes.nonfinite := by
      rw [(by norm_num : (1:ℝ) - 1 = 0)]
      exact black_price_unit_zero cdfRat
    refine (solveFuel_nan 11 1 hz).trans ?_
    norm_num
  · rintro ⟨x, hx, -⟩
    rw [black_price_unit_zero cdfRat] at hx
    exact PRes.noConfusion hx

lemma shrinkDec_pyNone {P : ℝ → PRes} {t vol k : ℝ} (f : ℕ)
    (h : P (vol - k) = PRes.pyNone) : shrinkDec P t (f + 1) vol k = some k := by
  rw [shrinkDec_succ, h]

lemma shrinkDec_exc {P : ℝ → PRes} {t vol k : ℝ} (f : ℕ)
    (h : P (vol - k) = PRes.exc) : shrinkDec P t (f + 1) vol k = some k := by
  rw [shrinkDec_succ, h]

lemma shrinkInc_nan {P : ℝ → PRes} {t vol k : ℝ} (f : ℕ)
    (h : P (vol - k) = PRes.nonfinite) : shrinkInc P t (f + 1) vol k = some k := by
  rw [shrinkInc_succ, h]

lemma shrinkInc_pyNone {P : ℝ → PRes} {t vol k : ℝ} (f : ℕ)
    (h : P (vol - k) = PRes.pyNone) : shrinkInc P t (f + 1) vol k = some k := by
  rw [shrinkInc_succ, h]

lemma shrinkInc_exc {P : ℝ → PRes} {t vol k : ℝ} (f : ℕ)
    (h : P (vol - k) = PRes.exc) : shrinkInc P t (f + 1) vol k = some k := by
  rw [shrinkInc_succ, h]

/-- Whatever the inner decrease loop commits is the entering step divided by
a power of ten: the step only ever shrinks, by factors of 10. -/
lemma shrinkDec_pow (P : ℝ → PRes) (t : ℝ) :
    ∀ (f : ℕ) (k vol k2 : ℝ), shrinkDec P t f vol k = some k2 →
      ∃ j : ℕ, k2 = k / 10 ^ j := by
  intro f
  induction f with
  | zero =>
    intro k vol k2 h
    rw [shrinkDec_zero] at h
    exact absurd h (by simp)
  | succ f ih =>
    intro k vol k2 h
    cases hp : P (vol - k) with
    | num y =>
      by_cases hy : y < t
      · rw [shrinkDec_step f hp hy] at h
        obtain ⟨j, hj⟩ := ih (k / 10) vol k2 h
        exact ⟨j + 1, by rw [hj, div_div, ← pow_succ']⟩
      · rw [shrinkDec_stop f hp hy] at h
        injection h with h2
        exact ⟨0, by rw [← h2, pow_zero, div_one]⟩
    | nonfinite =>
      rw [shrinkDec_nan f hp] at h
      injection h with h2
      exact ⟨0, by rw [← h2, pow_zero, div_one]⟩
    | pyNone =>
      rw [shrinkDec_pyNone f hp] at h
      injection h with h2
      exact ⟨0, by rw [← h2, pow_zero, div_one]⟩
    | exc =>
      rw [shrinkDec_exc f hp] at h
      injection h with h2
      exact ⟨0, by rw [← h2, pow_zero, div_one]⟩

lemma shrinkInc_pow (P : ℝ → PRes) (t : ℝ) :
    ∀ (f : ℕ) (k vol k2 : ℝ), shrinkInc P t f vol k = some k2 →
      ∃ j : ℕ, k2 = k / 10 ^ j := by
  intro f
  induction f with
  | zero =>
    intro k vol k2 h
    rw [shrinkInc_zero] at h
    exact absurd h (by simp)
  | succ f ih =>
    intro k vol k2 h
    cases hp : P (vol - k) with
    | num y =>
      by_cases hy : y > t
      · rw [shrinkInc_step f hp hy] at h
        obtain ⟨j, hj⟩ := ih (k / 10) vol k2 h
        exact ⟨j + 1, by rw [hj, div_div, ← pow_succ']⟩
      · rw [shrinkInc_stop f hp hy] at h
        injection h with h2
        exact ⟨0, by rw [← h2, pow_zero, div_one]⟩
    | nonfinite =>
      rw [shrinkInc_nan f hp] at h
      injection h with h2
      exact ⟨0, by rw [← h2, pow_zero, div_one]⟩
    | pyNone =>
      rw [shrinkInc_pyNone f hp] at h
      injection h with h2
      exact ⟨0, by rw [← h2, pow_zero, div_one]⟩
    | exc =>
      rw [shrinkInc_exc f hp] at h
      injection h with h2
      exact ⟨0, by rw [← h2, pow_zero, div_one]⟩

/-- The decrease loop only commits a step whose landing price (probed at
`vol - k`) is not below the target: downward overshoot is prevented. -/
lemma shrinkDec_probe (P : ℝ → PRes) (t : ℝ) :
    ∀ (f : ℕ) (k vol k2 : ℝ), shrinkDec P t f vol k = some k2 →
      ∀ x, P (vol - k2) = PRes.num x → ¬ x < t := by
  intro f
  induction f with
  | zero =>
    intro k vol k2 h
    rw [shrinkDec_zero] at h
    exact absurd h (by simp)
  | succ f ih =>
    intro k vol k2 h
    cases hp : P (vol - k) with
    | num y =>
      by_cases hy : y < t
      · rw [shrinkDec_step f hp hy] at h
        exact ih (k / 10) vol k2 h
      · rw [shrinkDec_stop f hp hy] at h
        injection h with h2
        subst h2
        intro x hx
        injection (hp.symm.trans hx) with hxy
        rw [← hxy]
        exact hy
    | nonfinite =>
      rw [shrinkDec_nan f hp] at h
      injection h with h2
      subst h2
      intro x hx
      rw [hp] at hx
      exact absurd hx (by simp)
    | pyNone =>
      rw [shrinkDec_pyNone f hp] at h
      injection h with h2
      subst h2
      intro x hx
      rw [hp] at hx
      exact absurd hx (by simp)
    | exc =>
      rw [shrinkDec_exc f hp] at h
      injection h with h2
      subst h2
      intro x hx
      rw [hp] at hx
      exact absurd hx (by simp)

/-- The increase loop also probes at `vol - k` (the source slip): what it
guarantees about the committed step concerns the price at `vol - k`, not at
the upward candidate `vol + k`. -/
lemma shrinkInc_probe (P : ℝ → PRes) (t : ℝ) :
    ∀ (f : ℕ) (k vol k2 : ℝ), shrinkInc P t f vol k = some k2 →
      ∀ x, P (vol - k2) = PRes.num x → ¬ x > t := by
  intro f
  induction f with
  | zero =>
    intro k vol k2 h
    rw [shrinkInc_zero] at h
    exact absurd h (by simp)
  | succ f ih =>
    intro k vol k2 h
    cases hp : P (vol - k) with
    | num y =>
      by_cases hy : y > t
      · rw [shrinkInc_step f hp hy] at h
        exact ih (k / 10) vol k2 h
      · rw [shrinkInc_stop f hp hy] at h
        injection h with h2
        subst h2
        intro x hx
        injection (hp.symm.trans hx) with hxy
        rw [← hxy]
        exact hy
    | nonfinite =>
      rw [shrinkInc_nan f hp] at h
      injection h with h2
      subst h2
      intro x hx
      rw [hp] at hx
      exact absurd hx (by simp)
    | pyNone =>
      rw [shrinkInc_pyNone f hp] at h
      injection h with h2
      subst h2
      intro x hx
      rw [hp] at hx
      exact absurd hx (by simp)
    | exc =>
      rw [shrinkInc_exc f hp] at h
      injection h with h2
      subst h2
      intro x hx
      rw [hp] at hx
      exact absurd hx (by simp)

/-- Claim C5 as stated is false of the code in two respects, both exhibited
on the unit instance under `cdfRat`.  First conjunct: from `vol = 1`,
`k = 10^10`, one shrink of the decrease loop commits step `10^9 = k/10`,
not `k/2` - the step is divided by 10, not halved.  Second conjunct: from a
state with price `-(3/5)` below the target `1/2`, the solver commits the
full uncut upward move to `vol + 10^10`, whose price `9999999997/9999999999`
lies past the target (the candidate crossed the observed price from below),
because the increase branch probes the price at `vol - k` instead of
`vol + k`: the overshooting move is committed, not retried. -/
theorem c5_step_policy_counterexample :
    (shrinkDec (fun v => black_price cdfRat 1 1 0 0 1 v ("call"))
        (-(999999999/1000000000)) 2 1 10000000000 = some 1000000000 ∧
      (1000000000:ℝ) ≠ 10000000000 / 2) ∧
    (solveFuel (fun v => black_price cdfRat 1 1 0 0 1 v ("call")) (1/2) 2 (-3)
        10000000000 = some (-3 + 10000000000) ∧
      black_price cdfRat 1 1 0 0 1 (-3) ("call") = PRes.num (-(3/5)) ∧
      (-(3/5) : ℝ) < 1/2 ∧
      black_price cdfRat 1 1 0 0 1 (-3 + 10000000000) ("call") =
        PRes.num (9999999997/9999999999) ∧
      (1/2 : ℝ) < 9999999997/9999999999) := by
  have hlow : black_price cdfRat 1 1 0 0 1 (-3) ("call") = PRes.num (-(3/5)) := by
    rw [black_price_unit_rat (-3) (by norm_num)]
    congr 1
    rw [abs_of_neg (by norm_num : (-3:ℝ) < 0)]
    norm_num
  have hhigh : black_price cdfRat 1 1 0 0 1 (-3 + 10000000000) ("call") =
      PRes.num (9999999997/9999999999) := by
    rw [black_price_unit_rat _ (by norm_num)]
    congr 1
    rw [abs_of_pos (by norm_num : (0:ℝ) < -3 + 10000000000)]
    norm_num
  refine ⟨⟨?_, by norm_num⟩, ?_, hlow, by norm_num, hhigh, by norm_num⟩
  · have pA : black_price cdfRat 1 1 0 0 1 ((1:ℝ) - 10000000000) ("call") =
        PRes.num (((1:ℝ) - 10000000000) / (2 + |(1:ℝ) - 10000000000|)) :=
      black_price_unit_rat _ (by norm_num)
    have cA : ((1:ℝ) - 10000000000) / (2 + |(1:ℝ) - 10000000000|) <
        -(999999999/1000000000) := by
      rw [abs_of_neg (by norm_num : (1:ℝ) - 10000000000 < 0)]
      norm_num
    refine (shrinkDec_step 1 pA cA).trans ?_
    rw [(by norm_num : (10000000000:ℝ) / 10 = 1000000000)]
    have pB : black_price cdfRat 1 1 0 0 1 ((1:ℝ) - 1000000000) ("call") =
        PRes.num (((1:ℝ) - 1000000000) / (2 + |(1:ℝ) - 1000000000|)) :=
      black_price_unit_rat _ (by norm_num)
    have cB : ¬ ((1:ℝ) - 1000000000) / (2 + |(1:ℝ) - 1000000000|) <
        -(999999999/1000000000) := by
      rw [abs_of_neg (by norm_num : (1:ℝ) - 1000000000 < 0)]
      norm_num
    exact shrinkDec_stop 0 pB cB
  · have hprobe : black_price cdfRat 1 1 0 0 1 ((-3:ℝ) - 10000000000) ("call") =
        PRes.num (((-3:ℝ) - 10000000000) / (2 + |(-3:ℝ) - 10000000000|)) :=
      black_price_unit_rat _ (by norm_num)
    have hinner : shrinkInc (fun v => black_price cdfRat 1 1 0 0 1 v ("call"))
        (1/2) 2 (-3) 10000000000 = some 10000000000 := by
      refine shrinkInc_stop 1 hprobe ?_
      rw [abs_of_neg (by norm_num : (-3:ℝ) - 10000000000 < 0)]
      norm_num
    have hguard : |(-(3/5):ℝ) - 1/2| > 1 := by
      rw [abs_of_neg (by norm_num : (-(3/5):ℝ) - 1/2 < 0)]
      norm_num
    refine (solveFuel_inc 1 hlow hguard (by norm_num) hinner).trans ?_
    exact solveFuel_exit 0 10000000000 hhigh
      (by rw [abs_of_nonneg (by norm_num : (0:ℝ) ≤ 9999999997/9999999999 - 1/2)]
          norm_num)

/-- Claim C5, amended: the solver starts from guess 1.0 with initial step
`10^10`; every step the inner loops commit is the entering step divided by
a power of ten (division by 10 per probe - never halving, and the step
never grows); when the price at the guess is above the target the solver
moves down by the committed step, and the committed step's landing price
(probed at `vol - k`) is never below the target; when the price is below
the target the solver moves up by the committed step, but the probe that
guards the commitment evaluates the price at `vol - k` rather than at the
upward candidate `vol + k`, so upward moves carry no effective overshoot
check. -/
theorem c5_solver_step_policy :
    (∀ (N : ℝ → ℝ) (spot strike rf div_yield ttm t : ℝ) (opt : String) (fuel : ℕ),
      implied_vol N spot strike rf div_yield ttm opt t fuel =
        solveFuel (fun v => black_price N spot strike rf div_yield ttm v opt) t
          fuel 1 10000000000) ∧
    (∀ (P : ℝ → PRes) (t : ℝ) (f : ℕ) (vol k k2 : ℝ),
      shrinkDec P t f vol k = some k2 → ∃ j : ℕ, k2 = k / 10 ^ j) ∧
    (∀ (P : ℝ → PRes) (t : ℝ) (f : ℕ) (vol k k2 : ℝ),
      shrinkInc P t f vol k = some k2 → ∃ j : ℕ, k2 = k / 10 ^ j) ∧
    (∀ (P : ℝ → PRes) (t : ℝ) (f : ℕ) (vol k x k2 : ℝ),
      P vol = PRes.num x → |x - t| > 1 → x > t →
      shrinkDec P t (f + 1) vol k = some k2 →
      solveFuel P t (f + 1) vol k = solveFuel P t f (vol - k2) k2) ∧
    (∀ (P : ℝ → PRes) (t : ℝ) (f : ℕ) (vol k x k2 : ℝ),
      P vol = PRes.num x → |x - t| > 1 → ¬ x > t →
      shrinkInc P t (f + 1) vol k = some k2 →
      solveFuel P t (f + 1) vol k = solveFuel P t f (vol + k2) k2) ∧
    (∀ (P : ℝ → PRes) (t : ℝ) (f : ℕ) (vol k k2 : ℝ),
      shrinkDec P t f vol k = some k2 →
      ∀ x, P (vol - k2) = PRes.num x → ¬ x < t) ∧
    (∀ (P : ℝ → PRes) (t : ℝ) (f : ℕ) (vol k k2 : ℝ),
      shrinkInc P t f vol k = some k2 →
      ∀ x, P (vol - k2) = PRes.num x → ¬ x > t) :=
  ⟨fun N spot strike rf div_yield ttm t opt fuel => rfl,
    fun P t f vol k k2 h => shrinkDec_pow P t f k vol k2 h,
    fun P t f vol k k2 h => shrinkInc_pow P t f k vol k2 h,
    fun P t f vol k x k2 h h1 h2 h3 => solveFuel_dec f h h1 h2 h3,
    fun P t f vol k x k2 h h1 h2 h3 => solveFuel_inc f h h1 h2 h3,
    fun P t f vol k k2 h => shrinkDec_probe P t f k vol k2 h,
    fun P t f vol k k2 h => shrinkInc_probe P t f k vol k2 h⟩

/-- Witness for the amended C5: a concrete inner-loop run that exits at
once commits the unchanged step `10^10 = 10^10 / 10^0`. -/
theorem c5_solver_step_policy_witness :
    ∃ j : ℕ, (10000000000:ℝ) = 10000000000 / 10 ^ j := by
  have hp : black_price cdfHalf 1 1 0 0 1 ((5:ℝ) - 10000000000) ("call") =
      PRes.num 0 := by
    rw [black_price_unit_call cdfHalf _ (by norm_num)]
    congr 1
    norm_num [cdfHalf]
  have hstop : shrinkDec (fun v => black_price cdfHalf 1 1 0 0 1 v ("call")) 0 1 5
      10000000000 = some 10000000000 :=
    shrinkDec_stop 0 hp (by norm_num)
  exact c5_solver_step_policy.2.1 _ 0 1 5 10000000000 10000000000 hstop
